import Mathlib

/-!
Verification of the hvacvibe-hub viewer client.

Shallow embedding of the browser-side code in src/gateway/static
(app.js, dashboard.js, setup.js).  JS numbers are modelled as
rationals, DOM text and visibility as record fields, and WebSocket
traffic as explicit lists of sent frames.  Fallible operations
(indexing past the end of an array) are modelled with Option.
-/

namespace HvacVibe

/-! ## app.js : WebSocket client and view router -/

/-- The two client views routed by app.js (the currentView variable). -/
inductive View where
  | main
  | setup
deriving DecidableEq

/-- Command payloads the client can pass to App.send. -/
inductive OutCmd where
  | getStatus
  | wifiScan
  | wifiConnect (ssid password : String)
  | bleScan
  | blePair (address name : String)
  | bleUnpair (address : String)
deriving DecidableEq

/-- Function showMain of app.js: switch to the main view; it calls
App.send on nothing. -/
def showMain : View × List OutCmd := (View.main, [])

/-- Function showSetup of app.js: switch to the setup view and request a
fresh status, sending the get_status command. -/
def showSetup : View × List OutCmd := (View.setup, [OutCmd.getStatus])

/-- Function dispatch of app.js, as the new view plus the commands sent
while handling one inbound message.  On a toggle_view message it runs
showSetup when the current view is main and showMain otherwise.  Every
other message type only runs the registered listeners, none of which
calls App.send, so no command is emitted for it. -/
def dispatch (currentView : View) (msgType : String) : View × List OutCmd :=
  if msgType = "toggle_view" then
    match currentView with
    | View.main => showSetup
    | View.setup => showMain
  else
    (currentView, [])

/-- The readyState constant WebSocket.OPEN of the browser API. -/
def WebSocketOPEN : Nat := 1

/-- A WebSocket handle: its readyState and the frames written so far. -/
structure WS where
  readyState : Nat
  sentFrames : List String
deriving DecidableEq

/-- Function send of app.js: writes the serialized object to the socket
only when the ws variable is non-null and its readyState equals
WebSocket.OPEN; otherwise the call returns with no effect. -/
def send (obj : String) (ws : Option WS) : Option WS :=
  match ws with
  | some w =>
      if w.readyState = WebSocketOPEN then
        some { w with sentFrames := w.sentFrames ++ [obj] }
      else
        some w
  | none => none

/-! ## setup.js : on-screen keyboard and HTML escaping -/

/-- The three keyboard layouts of setup.js (the kbdMode variable). -/
inductive KbdMode where
  | lower
  | upper
  | num
deriving DecidableEq

/-- Function kbdPress of setup.js, restricted to its effect on the typed
text kbdText and the layout kbdMode.  DEL drops the last character,
SPACE appends a blank, the four mode keys only switch layout, OK leaves
the text unchanged (it submits it), and any other key is appended, with
the upper layout falling back to lower after one character. -/
def kbdPress (key : String) (kbdText : String) (kbdMode : KbdMode) :
    String × KbdMode :=
  if key = "DEL" then (kbdText.dropRight 1, kbdMode)
  else if key = "SPACE" then (kbdText ++ " ", kbdMode)
  else if key = "SHF" then (kbdText, KbdMode.upper)
  else if key = "shf" then (kbdText, KbdMode.lower)
  else if key = "123" then (kbdText, KbdMode.num)
  else if key = "ABC" then (kbdText, KbdMode.lower)
  else if key = "OK" then (kbdText, kbdMode)
  else (kbdText ++ key,
        if kbdMode = KbdMode.upper then KbdMode.lower else kbdMode)

/-- Function updateKbdDisplay of setup.js: the password input display
shows one asterisk per typed character and nothing else. -/
def updateKbdDisplay (kbdText : String) : String :=
  String.mk (List.replicate kbdText.length '*')

/-- The double-quote character, written by code point. -/
def quoteChar : Char := Char.ofNat 34

/-- The single-quote character, written by code point. -/
def aposChar : Char := Char.ofNat 39

/-- Global single-character replacement: the semantics of the JS call
String.replace with a one-character global regex pattern. -/
def replaceChar (c : Char) (r : List Char) : List Char → List Char
  | [] => []
  | x :: xs => (if x = c then r else [x]) ++ replaceChar c r xs

/-- The entity replacing an ampersand. -/
def ampEnt : List Char := ['&', 'a', 'm', 'p', ';']

/-- The entity replacing a less-than sign. -/
def ltEnt : List Char := ['&', 'l', 't', ';']

/-- The entity replacing a greater-than sign. -/
def gtEnt : List Char := ['&', 'g', 't', ';']

/-- The entity replacing a double quote. -/
def quotEnt : List Char := ['&', 'q', 'u', 'o', 't', ';']

/-- The four entities escHtml can produce. -/
def entities : List (List Char) := [ampEnt, ltEnt, gtEnt, quotEnt]

/-- Function escHtml of setup.js: four global replaces in sequence,
first every ampersand, then every less-than, then every greater-than,
then every double quote, each by its named entity. -/
def escHtml (s : List Char) : List Char :=
  replaceChar quoteChar quotEnt
    (replaceChar '>' gtEnt
      (replaceChar '<' ltEnt
        (replaceChar '&' ampEnt s)))

/-- Per-character view of escHtml: what one input character contributes
to the output. -/
def escChar (c : Char) : List Char :=
  if c = '&' then ampEnt
  else if c = '<' then ltEnt
  else if c = '>' then gtEnt
  else if c = quoteChar then quotEnt
  else [c]

/-- Lists in which every ampersand is the start of one of the four
escHtml entities: built from ampersand-free characters and whole
entities. -/
inductive AmpOk : List Char → Prop where
  | nil : AmpOk []
  | safe (c : Char) (hc : c ≠ '&') {l : List Char} (h : AmpOk l) :
      AmpOk (c :: l)
  | ent (e : List Char) (he : e ∈ entities) {l : List Char} (h : AmpOk l) :
      AmpOk (e ++ l)

/-! ## dashboard.js : tiles and canvas chart -/

/-- The data field of a sensor_update message, per the viewer protocol
schema. -/
structure SensorData where
  vib_rms : ℚ
  vib_peak : ℚ
  temp : ℚ
  humidity : ℚ
  alarm : Bool
  connected : Bool
  battery : ℚ
  rssi : ℤ
  history : List (ℤ × ℚ)

/-- The JS call Math.round: round to nearest, half toward positive
infinity. -/
def jsRound (q : ℚ) : ℤ := ⌊q + 1 / 2⌋

/-- The JS call Number.toFixed: decimal string with a fixed number of
fraction digits. -/
def jsToFixed (q : ℚ) (d : Nat) : String :=
  let m : ℤ :=
    if 0 ≤ q then ⌊q * (10 : ℚ) ^ d + 1 / 2⌋
    else -⌊-q * (10 : ℚ) ^ d + 1 / 2⌋
  let a := m.natAbs
  let ip := a / 10 ^ d
  let fp := a % 10 ^ d
  let fs := toString fp
  let pad := String.mk (List.replicate (d - fs.length) '0')
  (if m < 0 then "-" else "") ++ toString ip ++
    (if d = 0 then "" else "." ++ pad ++ fs)

/-- The MINUTES constant of dashboard.js. -/
def MINUTES : ℤ := 1440

/-- The JS expression Math.max spread over an array, with the empty
array mapped to 0 by the guarding ternary in computeYMax. -/
def jsMax : List ℚ → ℚ
  | [] => 0
  | x :: xs => xs.foldl max x

/-- Function computeYMax of dashboard.js: scale the maximum by 1.15,
keep it at least 1.0, and round up to the nearest 0.25. -/
def computeYMax (values : List ℚ) : ℚ :=
  let mx := jsMax values
  let raw := max (1 : ℚ) (mx * (1.15 : ℚ))
  ((⌈raw * 4⌉ : ℤ) : ℚ) / 4

/-- Function rssiToBars of dashboard.js. -/
def rssiToBars (rssi : ℤ) : Nat :=
  if -60 ≤ rssi then 4
  else if -70 ≤ rssi then 3
  else if -80 ≤ rssi then 2
  else if -90 ≤ rssi then 1
  else 0

/-- Function updateYAxis of dashboard.js: five labels, from the top of
the scale down to zero. -/
def updateYAxisLabels (history : List (ℤ × ℚ)) : List String :=
  let yMax := computeYMax (history.map Prod.snd)
  ([4, 3, 2, 1, 0] : List ℚ).map (fun i => jsToFixed (yMax * i / 4) 2)

/-- The DOM state written by updateTiles: tile texts, badge and clock
visibility, colors, connection indicator, signal bars, battery and the
y-axis labels. -/
structure TileDisplay where
  valRms : String
  valPeak : String
  valTemp : String
  valHum : String
  badgeVisible : Bool
  clockVisible : Bool
  rmsColor : String
  connDotClass : String
  connLabel : String
  connLabelColor : String
  barsOn : Nat
  rssiText : String
  batWidthPct : ℚ
  batColor : String
  batPctText : String
  yAxisLabels : List String

/-- Function updateTiles of dashboard.js, as the DOM state it writes for
one sensor_update data object. -/
def updateTiles (d : SensorData) : TileDisplay :=
  { valRms := jsToFixed d.vib_rms 3
    valPeak := jsToFixed d.vib_peak 2
    valTemp := jsToFixed d.temp 1
    valHum := jsToFixed d.humidity 1
    badgeVisible := d.alarm
    clockVisible := !d.alarm
    rmsColor := if d.alarm then "var(--red)" else "var(--accent)"
    connDotClass :=
      if d.connected then "conn-dot connected" else "conn-dot disconnected"
    connLabel := if d.connected then "Connected" else "No Signal"
    connLabelColor := if d.connected then "var(--green)" else "var(--red)"
    barsOn := rssiToBars d.rssi
    rssiText := toString d.rssi ++ "dBm"
    batWidthPct := d.battery
    batColor :=
      if 50 < d.battery then "var(--green)"
      else if 20 < d.battery then "var(--yellow)" else "var(--red)"
    batPctText := toString d.battery ++ "%"
    yAxisLabels := updateYAxisLabels d.history }

/-- The PAD_T constant of renderChart. -/
def PAD_T : ℤ := 20

/-- The PAD_B constant of renderChart. -/
def PAD_B : ℤ := 18

/-- The PAD_L constant of renderChart. -/
def PAD_L : ℤ := 6

/-- The PAD_R constant of renderChart. -/
def PAD_R : ℤ := 8

/-- The plot width pw of renderChart. -/
def pwOf (chartW : ℤ) : ℤ := chartW - PAD_L - PAD_R

/-- The plot height ph of renderChart. -/
def phOf (chartH : ℤ) : ℤ := chartH - PAD_T - PAD_B

/-- The x coordinate of a minute of day in renderChart:
px + Math.round(min * pw / (MINUTES - 1)). -/
def xCoord (px pw : ℤ) (m : ℤ) : ℤ :=
  px + jsRound ((m : ℚ) * (pw : ℚ) / ((MINUTES : ℚ) - 1))

/-- The unclamped y coordinate of an rms value in renderChart:
py + ph - Math.round(ph * rms / yMax). -/
def yOf (py ph : ℤ) (yMax rms : ℚ) : ℤ :=
  py + ph - jsRound ((ph : ℚ) * rms / yMax)

/-- The clamp applied to every data point y in renderChart:
Math.max(py, Math.min(py + ph, y)). -/
def clampY (py ph y : ℤ) : ℤ := max py (min (py + ph) y)

/-- One data point of renderChart: x from the minute, clamped y from the
rms value. -/
def pointOf (px py pw ph : ℤ) (yMax : ℚ) (mr : ℤ × ℚ) : ℤ × ℤ :=
  (xCoord px pw mr.1, clampY py ph (yOf py ph yMax mr.2))

/-- The points array of renderChart. -/
def renderPoints (px py pw ph : ℤ) (yMax : ℚ) (history : List (ℤ × ℚ)) :
    List (ℤ × ℤ) :=
  history.map (pointOf px py pw ph yMax)

/-- The alarm threshold constant of renderChart (the thresh local). -/
def THRESH : ℚ := 0.6

/-- The alarm threshold line of renderChart: drawn at height
py + ph - Math.round(ph * thresh / yMax) exactly when thresh is at most
yMax. -/
def thresholdLineOf (py ph : ℤ) (yMax : ℚ) : Option ℤ :=
  if THRESH ≤ yMax then some (yOf py ph yMax THRESH) else none

/-- What renderChart draws: the scale, grid line heights, x-axis tick
positions, optional threshold line height, NOW line position, the data
point array, and the final dot and label read from the last entries of
the points and history arrays. -/
structure ChartRender where
  yMax : ℚ
  gridYs : List ℤ
  xTicks : List ℤ
  thresholdY : Option ℤ
  nowX : ℤ
  points : List (ℤ × ℤ)
  lastDot : Option (ℤ × ℤ)
  lastLabel : Option String

/-- Function renderChart of dashboard.js for one data object, given the
canvas size and the current minute of day.  The fallible accesses to
points[points.length - 1] and history[history.length - 1] are modelled
with Option lookups; they are reached only behind the guard that
returns early when history holds fewer than two entries. -/
def renderChart (chartW chartH curMin : ℤ) (d : SensorData) :
    Option ChartRender :=
  let history := d.history
  let pw := pwOf chartW
  let ph := phOf chartH
  let px := PAD_L
  let py := PAD_T
  let yMax := computeYMax (history.map Prod.snd)
  let gridYs :=
    ([0, 1, 2, 3, 4] : List ℚ).map (fun i => py + ph - jsRound (ph * i / 4))
  let xTicks := ([0, 360, 720, 1080, 1439] : List ℤ).map (xCoord px pw)
  let thresholdY := thresholdLineOf py ph yMax
  let nowX := xCoord px pw curMin
  if history.length < 2 then
    some { yMax, gridYs, xTicks, thresholdY, nowX,
           points := [], lastDot := none, lastLabel := none }
  else
    let points := renderPoints px py pw ph yMax history
    (points.get? (points.length - 1)).bind fun lastP =>
      (history.get? (history.length - 1)).map fun lastH =>
        { yMax, gridYs, xTicks, thresholdY, nowX, points,
          lastDot := some lastP,
          lastLabel := some (jsToFixed lastH.2 3 ++ "g") }

/-- The sensor_update listener of dashboard.js: updateTiles followed by
renderChart. -/
def onSensorUpdate (chartW chartH curMin : ℤ) (d : SensorData) :
    Option (TileDisplay × ChartRender) :=
  (renderChart chartW chartH curMin d).map fun c => (updateTiles d, c)

/-- A concrete, schema-valid sensor_update payload used as a test
fixture. -/
def sampleData : SensorData :=
  { vib_rms := 1 / 2
    vib_peak := 1
    temp := 21
    humidity := 40
    alarm := false
    connected := true
    battery := 90
    rssi := -55
    history := [(0, 1 / 4), (1, 1 / 2)] }

/-! ## Theorems -/

/-- C1 counterexample: dispatching a toggle_view message while the main
view is current sends the get_status command to the gateway over the
WebSocket, so handling toggle_view is not free of backend messages. -/
theorem dispatch_toggle_view_sends_command :
    (dispatch View.main "toggle_view").2 = [OutCmd.getStatus] ∧
    (dispatch View.main "toggle_view").2 ≠ [] := by
  constructor
  · rfl
  · decide

/-- C1 amended: handling a toggle_view message only switches between
the main and setup views, and the only command it can send is the
read-only get_status query, sent exactly when it enters the setup view;
returning to the main view sends nothing. -/
theorem dispatch_toggle_view_amended (v : View) :
    (dispatch v "toggle_view").1 =
      (if v = View.main then View.setup else View.main) ∧
    (dispatch v "toggle_view").2 =
      (if v = View.main then [OutCmd.getStatus] else []) := by
  cases v <;> simp [dispatch, showSetup, showMain]

/-- C3: after updateTiles processes a sensor_update, the alarm badge is
visible exactly when the alarm flag of the update is true, and the
clock is hidden exactly when the badge is visible. -/
theorem alarm_badge_clock_complementary (d : SensorData) :
    (updateTiles d).badgeVisible = d.alarm ∧
    (updateTiles d).clockVisible = !(updateTiles d).badgeVisible :=
  ⟨rfl, rfl⟩

/-- C5: for every sensor_update the connection indicator text is
Connected exactly when the connected field is true and No Signal
exactly when it is false, so no other text is ever shown for a
disconnected sensor. -/
theorem conn_label_connected (d : SensorData) :
    ((updateTiles d).connLabel = "Connected" ↔ d.connected = true) ∧
    ((updateTiles d).connLabel = "No Signal" ↔ d.connected = false) := by
  cases h : d.connected <;> simp [updateTiles, h]

/-- C8: a command passed to send while the ws variable is null or the
socket is not in the OPEN readyState has no effect at all: the socket
state, including the list of frames ever written, is unchanged, so the
command is discarded rather than queued or retried. -/
theorem send_not_open_noop (obj : String) (ws : Option WS)
    (h : ∀ w, ws = some w → w.readyState ≠ WebSocketOPEN) :
    send obj ws = ws := by
  cases ws with
  | none => rfl
  | some w => simp [send, h w rfl]

/-- Witness for C8 at a concrete connecting socket. -/
theorem send_not_open_noop_witness :
    (∀ w : WS, (some ⟨0, []⟩ : Option WS) = some w →
      w.readyState ≠ WebSocketOPEN) ∧
    send "x" (some ⟨0, []⟩) = some ⟨0, []⟩ := by
  refine ⟨?_, send_not_open_noop "x" (some ⟨0, []⟩) ?_⟩ <;>
  · intro w hw
    injection hw with h2
    subst h2
    decide

/-- C9: the keyboard input display depends only on the length of the
typed password: equal-length passwords render identically, and the
rendered text consists of asterisks only, so no password character is
ever shown. -/
theorem kbd_display_length_only (s t : String) (h : s.length = t.length) :
    updateKbdDisplay s = updateKbdDisplay t ∧
    ∀ c ∈ (updateKbdDisplay s).data, c = '*' := by
  constructor
  · unfold updateKbdDisplay
    rw [h]
  · intro c hc
    have hd : (updateKbdDisplay s).data = List.replicate s.length '*' := rfl
    rw [hd] at hc
    exact List.eq_of_mem_replicate hc

/-- Witness for C9 at two distinct two-character passwords. -/
theorem kbd_display_length_only_witness :
    ("ab".length = "xy".length) ∧
    (updateKbdDisplay "ab" = updateKbdDisplay "xy" ∧
     ∀ c ∈ (updateKbdDisplay "ab").data, c = '*') :=
  ⟨rfl, kbd_display_length_only "ab" "xy" rfl⟩

/-! ### Helper lemmas about rounding and the chart geometry -/

theorem jsRound_intCast (n : ℤ) : jsRound ((n : ℚ)) = n := by
  unfold jsRound
  rw [Int.floor_eq_iff]
  constructor
  · linarith
  · linarith

theorem jsRound_mono {a b : ℚ} (h : a ≤ b) : jsRound a ≤ jsRound b := by
  unfold jsRound
  exact Int.floor_le_floor (by linarith)

theorem xCoord_zero (px pw : ℤ) : xCoord px pw 0 = px := by
  have h : ((0 : ℤ) : ℚ) * (pw : ℚ) / ((MINUTES : ℚ) - 1) = ((0 : ℤ) : ℚ) := by
    simp
  unfold xCoord
  rw [h, jsRound_intCast, add_zero]

theorem xCoord_last (px pw : ℤ) : xCoord px pw 1439 = px + pw := by
  have h : ((1439 : ℤ) : ℚ) * (pw : ℚ) / ((MINUTES : ℚ) - 1) = ((pw : ℤ) : ℚ) := by
    have hM : ((MINUTES : ℚ) - 1) = 1439 := by norm_num [MINUTES]
    rw [hM]
    push_cast
    field_simp
  unfold xCoord
  rw [h, jsRound_intCast]

theorem xCoord_mono {pw m m' : ℤ} (hpw : 0 ≤ pw) (h : m ≤ m') (px : ℤ) :
    xCoord px pw m ≤ xCoord px pw m' := by
  unfold xCoord
  have hd : (0 : ℚ) ≤ ((MINUTES : ℚ) - 1)⁻¹ := by
    apply inv_nonneg.2
    norm_num [MINUTES]
  have hmul : (m : ℚ) * (pw : ℚ) ≤ (m' : ℚ) * (pw : ℚ) := by
    apply mul_le_mul_of_nonneg_right
    · exact_mod_cast h
    · exact_mod_cast hpw
  have hdiv : (m : ℚ) * (pw : ℚ) / ((MINUTES : ℚ) - 1) ≤
      (m' : ℚ) * (pw : ℚ) / ((MINUTES : ℚ) - 1) := by
    rw [div_eq_mul_inv, div_eq_mul_inv]
    exact mul_le_mul_of_nonneg_right hmul hd
  exact add_le_add_left (jsRound_mono hdiv) px

/-- C6: the chart x mapping of a minute of day, px plus the rounded
value of m times pw over 1439, stays inside the horizontal band from px
to px plus pw whenever the plot width is non-negative, maps minute 0 to
the left edge and minute 1439 to the right edge, and is monotone
non-decreasing in the minute. -/
theorem xCoord_in_band (px pw m m' : ℤ) (hpw : 0 ≤ pw)
    (hm0 : 0 ≤ m) (hmm : m ≤ m') (hm1 : m' ≤ 1439) :
    px ≤ xCoord px pw m ∧ xCoord px pw m ≤ px + pw ∧
    xCoord px pw 0 = px ∧ xCoord px pw 1439 = px + pw ∧
    xCoord px pw m ≤ xCoord px pw m' := by
  refine ⟨?_, ?_, xCoord_zero px pw, xCoord_last px pw, xCoord_mono hpw hmm px⟩
  · have h0 := xCoord_mono hpw hm0 px
    rw [xCoord_zero] at h0
    exact h0
  · have h1 := xCoord_mono hpw (le_trans hmm hm1) px
    rw [xCoord_last] at h1
    exact h1

/-- Witness for C6 at a 100-pixel-wide plot and minutes 3 and 7. -/
theorem xCoord_in_band_witness :
    ((0 : ℤ) ≤ 100 ∧ (0 : ℤ) ≤ 3 ∧ (3 : ℤ) ≤ 7 ∧ (7 : ℤ) ≤ 1439) ∧
    ((6 : ℤ) ≤ xCoord 6 100 3 ∧ xCoord 6 100 3 ≤ 6 + 100 ∧
     xCoord 6 100 0 = 6 ∧ xCoord 6 100 1439 = 6 + 100 ∧
     xCoord 6 100 3 ≤ xCoord 6 100 7) :=
  ⟨by decide,
   xCoord_in_band 6 100 3 7 (by decide) (by decide) (by decide) (by decide)⟩

theorem le_foldl_max_init : ∀ (xs : List ℚ) (a : ℚ), a ≤ xs.foldl max a
  | [], a => le_refl a
  | x :: xs, a => le_trans (le_max_left a x) (le_foldl_max_init xs (max a x))

theorem le_foldl_max_mem :
    ∀ (xs : List ℚ) (a v : ℚ), v ∈ xs → v ≤ xs.foldl max a
  | [], _, _, h => absurd h (List.not_mem_nil _)
  | x :: xs, a, v, h => by
      rcases List.mem_cons.1 h with h1 | h2
      · subst h1
        exact le_trans (le_max_right a v) (le_foldl_max_init xs (max a v))
      · exact le_foldl_max_mem xs (max a x) v h2

theorem le_jsMax {l : List ℚ} {v : ℚ} (h : v ∈ l) : v ≤ jsMax l := by
  cases l with
  | nil => exact absurd h (List.not_mem_nil v)
  | cons x xs =>
      rcases List.mem_cons.1 h with h1 | h2
      · subst h1
        exact le_foldl_max_init xs v
      · exact le_foldl_max_mem xs x v h2

theorem computeYMax_eq (values : List ℚ) :
    computeYMax values =
      ((⌈(max (1 : ℚ) (jsMax values * (1.15 : ℚ))) * 4⌉ : ℤ) : ℚ) / 4 := rfl

theorem raw_le_computeYMax (values : List ℚ) :
    max (1 : ℚ) (jsMax values * (1.15 : ℚ)) ≤ computeYMax values := by
  rw [computeYMax_eq, le_div_iff₀ (by norm_num : (0 : ℚ) < 4)]
  exact Int.le_ceil _

theorem one_le_computeYMax (values : List ℚ) : 1 ≤ computeYMax values :=
  le_trans (le_max_left _ _) (raw_le_computeYMax values)

theorem mem_le_computeYMax {values : List ℚ} {v : ℚ} (hv : v ∈ values)
    (h0 : 0 ≤ v) : v ≤ computeYMax values := by
  have hvm : v ≤ jsMax values := le_jsMax hv
  have hm0 : 0 ≤ jsMax values := le_trans h0 hvm
  have hscale : jsMax values ≤ jsMax values * (1.15 : ℚ) := by linarith
  exact le_trans hvm (le_trans hscale
    (le_trans (le_max_right _ _) (raw_le_computeYMax values)))

theorem clampY_band (py ph y : ℤ) (h : 0 ≤ ph) :
    py ≤ clampY py ph y ∧ clampY py ph y ≤ py + ph := by
  unfold clampY
  refine ⟨le_max_left _ _, max_le (by omega) (min_le_left _ _)⟩

theorem exists_get?_of_lt {α : Type} :
    ∀ (l : List α) (n : Nat), n < l.length → ∃ a, l.get? n = some a
  | [], _, h => absurd h (by simp)
  | a :: _, 0, _ => ⟨a, rfl⟩
  | _ :: l, Nat.succ n, h =>
      exists_get?_of_lt l n (Nat.lt_of_succ_lt_succ h)

theorem renderChart_shape (cw chh cm : ℤ) (d : SensorData) :
    ∃ c, renderChart cw chh cm d = some c ∧
      c.thresholdY = thresholdLineOf PAD_T (phOf chh)
        (computeYMax (d.history.map Prod.snd)) ∧
      (c.points = [] ∨
       c.points = renderPoints PAD_L PAD_T (pwOf cw) (phOf chh)
        (computeYMax (d.history.map Prod.snd)) d.history) := by
  simp only [renderChart]
  split
  · exact ⟨_, rfl, rfl, Or.inl rfl⟩
  · rename_i hlen
    have hh : d.history.length - 1 < d.history.length := by omega
    have hp : (renderPoints PAD_L PAD_T (pwOf cw) (phOf chh)
        (computeYMax (d.history.map Prod.snd)) d.history).length =
        d.history.length := by
      simp [renderPoints]
    obtain ⟨lastP, hP⟩ := exists_get?_of_lt
      (renderPoints PAD_L PAD_T (pwOf cw) (phOf chh)
        (computeYMax (d.history.map Prod.snd)) d.history)
      ((renderPoints PAD_L PAD_T (pwOf cw) (phOf chh)
        (computeYMax (d.history.map Prod.snd)) d.history).length - 1)
      (by rw [hp]; omega)
    obtain ⟨lastH, hH⟩ := exists_get?_of_lt d.history (d.history.length - 1) hh
    rw [hP, hH]
    exact ⟨_, rfl, rfl, Or.inr rfl⟩

/-- C2: for every sensor_update whose data matches the protocol schema,
the update handler, updateTiles followed by renderChart, completes and
returns a result: in particular the accesses to the last entries of the
points and history arrays, modelled as Option lookups, always succeed
because they sit behind the guard requiring at least two history
entries. -/
theorem sensor_update_handler_total (cw chh cm : ℤ) (d : SensorData)
    (_h : ∀ p ∈ d.history, 0 ≤ p.1 ∧ p.1 ≤ 1439 ∧ 0 ≤ p.2) :
    (onSensorUpdate cw chh cm d).isSome := by
  obtain ⟨c, hc, -, -⟩ := renderChart_shape cw chh cm d
  simp [onSensorUpdate, hc]

/-- Witness for C2 at the concrete fixture payload. -/
theorem sensor_update_handler_total_witness :
    (∀ p ∈ sampleData.history, 0 ≤ p.1 ∧ p.1 ≤ 1439 ∧ 0 ≤ p.2) ∧
    (onSensorUpdate 200 120 600 sampleData).isSome :=
  ⟨by norm_num [sampleData, List.forall_mem_cons],
   sensor_update_handler_total 200 120 600 sampleData
     (by norm_num [sampleData, List.forall_mem_cons])⟩

/-- C4: renderChart always succeeds and draws its alarm threshold line
at the fixed constant 0.6, exactly when 0.6 is at most computeYMax of
the history rms values; since computeYMax is at least 1, the line is in
fact always drawn. -/
theorem threshold_line_at_fixed_point_six (cw chh cm : ℤ) (d : SensorData) :
    ∃ c, renderChart cw chh cm d = some c ∧
      c.thresholdY = thresholdLineOf PAD_T (phOf chh)
        (computeYMax (d.history.map Prod.snd)) ∧
      (c.thresholdY.isSome ↔
        (0.6 : ℚ) ≤ computeYMax (d.history.map Prod.snd)) ∧
      c.thresholdY.isSome := by
  obtain ⟨c, hc, ht, -⟩ := renderChart_shape cw chh cm d
  have hiff : c.thresholdY.isSome ↔
      (0.6 : ℚ) ≤ computeYMax (d.history.map Prod.snd) := by
    rw [ht]
    unfold thresholdLineOf
    split
    · rename_i hle
      exact iff_of_true rfl hle
    · rename_i hlt
      exact iff_of_false (by simp) hlt
  refine ⟨c, hc, ht, hiff, ?_⟩
  rw [hiff]
  exact le_trans (by norm_num) (one_le_computeYMax _)

/-- C7: for a list of non-negative rms values, computeYMax is an
integer multiple of 0.25, is at least 1, and dominates every listed
value; and every plotted data point of renderChart has its clamped y
coordinate inside the vertical band from PAD_T to PAD_T plus the plot
height whenever the canvas is tall enough for a non-negative plot
height. -/
theorem computeYMax_sound (values : List ℚ) (cw chh cm : ℤ) (d : SensorData)
    (hv : ∀ v ∈ values, 0 ≤ v) (hch : 38 ≤ chh) :
    (∃ k : ℤ, computeYMax values = (k : ℚ) / 4) ∧
    1 ≤ computeYMax values ∧
    (∀ v ∈ values, v ≤ computeYMax values) ∧
    (∃ c, renderChart cw chh cm d = some c ∧
      ∀ p ∈ c.points, PAD_T ≤ p.2 ∧ p.2 ≤ PAD_T + phOf chh) := by
  have hph : (0 : ℤ) ≤ phOf chh := by
    simp only [phOf, PAD_T, PAD_B]
    omega
  refine ⟨⟨⌈(max (1 : ℚ) (jsMax values * (1.15 : ℚ))) * 4⌉, rfl⟩,
    one_le_computeYMax values,
    fun v hvmem => mem_le_computeYMax hvmem (hv v hvmem), ?_⟩
  obtain ⟨c, hc, -, hpts⟩ := renderChart_shape cw chh cm d
  refine ⟨c, hc, ?_⟩
  intro p hp
  rcases hpts with h0 | hr
  · rw [h0] at hp
    exact absurd hp (List.not_mem_nil p)
  · rw [hr] at hp
    simp only [renderPoints, List.mem_map] at hp
    obtain ⟨mr, -, rfl⟩ := hp
    exact clampY_band PAD_T (phOf chh) _ hph

/-- Witness for C7 at a concrete value list and the fixture payload. -/
theorem computeYMax_sound_witness :
    (∀ v ∈ ([0, 1 / 2] : List ℚ), 0 ≤ v) ∧ ((38 : ℤ) ≤ 100) ∧
    ((∃ k : ℤ, computeYMax [0, 1 / 2] = (k : ℚ) / 4) ∧
     1 ≤ computeYMax [0, 1 / 2] ∧
     (∀ v ∈ ([0, 1 / 2] : List ℚ), v ≤ computeYMax [0, 1 / 2]) ∧
     (∃ c, renderChart 300 100 0 sampleData = some c ∧
       ∀ p ∈ c.points, PAD_T ≤ p.2 ∧ p.2 ≤ PAD_T + phOf 100)) :=
  ⟨by norm_num [List.forall_mem_cons], by norm_num,
   computeYMax_sound [0, 1 / 2] 300 100 0 sampleData
     (by norm_num [List.forall_mem_cons]) (by norm_num)⟩

/-! ### Helper lemmas about escHtml -/

theorem replaceChar_append (c : Char) (r : List Char) :
    ∀ (a b : List Char),
      replaceChar c r (a ++ b) = replaceChar c r a ++ replaceChar c r b
  | [], _ => rfl
  | x :: a, b => by
      show (if x = c then r else [x]) ++ replaceChar c r (a ++ b) =
        ((if x = c then r else [x]) ++ replaceChar c r a) ++ replaceChar c r b
      rw [replaceChar_append c r a b, List.append_assoc]

theorem escHtml_append (a b : List Char) :
    escHtml (a ++ b) = escHtml a ++ escHtml b := by
  unfold escHtml
  rw [replaceChar_append, replaceChar_append, replaceChar_append,
    replaceChar_append]

theorem escHtml_single (x : Char) : escHtml [x] = escChar x := by
  by_cases h1 : x = '&'
  · subst h1
    decide
  · by_cases h2 : x = '<'
    · subst h2
      decide
    · by_cases h3 : x = '>'
      · subst h3
        decide
      · by_cases h4 : x = quoteChar
        · subst h4
          decide
        · unfold escHtml escChar
          simp [replaceChar, h1, h2, h3, h4]

theorem escHtml_cons (x : Char) (s : List Char) :
    escHtml (x :: s) = escChar x ++ escHtml s := by
  rw [show x :: s = [x] ++ s from rfl, escHtml_append, escHtml_single]

theorem escChar_no_specials (c y : Char) (hy : y ∈ escChar c) :
    y ≠ '<' ∧ y ≠ '>' ∧ y ≠ quoteChar := by
  unfold escChar at hy
  by_cases h1 : c = '&'
  · rw [if_pos h1] at hy
    simp [ampEnt] at hy
    rcases hy with rfl | rfl | rfl | rfl | rfl <;> refine ⟨?_, ?_, ?_⟩ <;> decide
  · rw [if_neg h1] at hy
    by_cases h2 : c = '<'
    · rw [if_pos h2] at hy
      simp [ltEnt] at hy
      rcases hy with rfl | rfl | rfl | rfl <;> refine ⟨?_, ?_, ?_⟩ <;> decide
    · rw [if_neg h2] at hy
      by_cases h3 : c = '>'
      · rw [if_pos h3] at hy
        simp [gtEnt] at hy
        rcases hy with rfl | rfl | rfl | rfl <;> refine ⟨?_, ?_, ?_⟩ <;> decide
      · rw [if_neg h3] at hy
        by_cases h4 : c = quoteChar
        · rw [if_pos h4] at hy
          simp [quotEnt] at hy
          rcases hy with rfl | rfl | rfl | rfl | rfl | rfl <;>
            refine ⟨?_, ?_, ?_⟩ <;> decide
        · rw [if_neg h4] at hy
          rcases List.mem_singleton.1 hy with rfl
          exact ⟨h2, h3, h4⟩

theorem escHtml_no_specials (s : List Char) (y : Char) (hy : y ∈ escHtml s) :
    y ≠ '<' ∧ y ≠ '>' ∧ y ≠ quoteChar := by
  induction s with
  | nil => exact absurd hy (List.not_mem_nil y)
  | cons x s ih =>
      rw [escHtml_cons] at hy
      rcases List.mem_append.1 hy with h | h
      · exact escChar_no_specials x y h
      · exact ih h

theorem escChar_cases (c : Char) :
    escChar c ∈ entities ∨ (escChar c = [c] ∧ c ≠ '&') := by
  unfold escChar
  by_cases h1 : c = '&'
  · rw [if_pos h1]
    left
    simp [entities]
  · rw [if_neg h1]
    by_cases h2 : c = '<'
    · rw [if_pos h2]
      left
      simp [entities]
    · rw [if_neg h2]
      by_cases h3 : c = '>'
      · rw [if_pos h3]
        left
        simp [entities]
      · rw [if_neg h3]
        by_cases h4 : c = quoteChar
        · rw [if_pos h4]
          left
          simp [entities]
        · rw [if_neg h4]
          right
          exact ⟨rfl, h1⟩

theorem ampOk_escHtml (s : List Char) : AmpOk (escHtml s) := by
  induction s with
  | nil => exact AmpOk.nil
  | cons x s ih =>
      rw [escHtml_cons]
      rcases escChar_cases x with h | ⟨he, hne⟩
      · exact AmpOk.ent _ h ih
      · rw [he]
        exact AmpOk.safe x hne ih

theorem amp_only_head (e : List Char) (htail : ∀ y ∈ e.drop 1, y ≠ '&')
    (i : Nat) (h : e.get? i = some '&') : i = 0 := by
  rcases i with _ | i
  · rfl
  · exfalso
    cases e with
    | nil => simp at h
    | cons a t =>
        have h2 : t.get? i = some '&' := h
        exact htail '&' (List.get?_mem h2) rfl

theorem entity_amp_at_zero (e : List Char) (he : e ∈ entities) (i : Nat)
    (h : e.get? i = some '&') : i = 0 := by
  simp [entities] at he
  rcases he with rfl | rfl | rfl | rfl <;>
    exact amp_only_head _ (by decide) i h

theorem get?_append_len {α : Type} :
    ∀ (e l : List α) (j : Nat), (e ++ l).get? (e.length + j) = l.get? j
  | [], _, _ => by simp
  | x :: e, l, j => by
      have h : (x :: e).length + j = (e.length + j) + 1 := by
        simp [List.length_cons]
        omega
      rw [h]
      exact get?_append_len e l j

theorem drop_append_len {α : Type} :
    ∀ (e l : List α) (j : Nat), (e ++ l).drop (e.length + j) = l.drop j
  | [], _, _ => by simp
  | x :: e, l, j => by
      have h : (x :: e).length + j = (e.length + j) + 1 := by
        simp [List.length_cons]
        omega
      rw [h]
      exact drop_append_len e l j

theorem ampOk_spec {l : List Char} (hl : AmpOk l) :
    ∀ i, l.get? i = some '&' →
      ∃ e ∈ entities, ∃ rest, l.drop i = e ++ rest := by
  induction hl with
  | nil =>
      intro i hi
      simp at hi
  | safe c hc h ih =>
      intro i hi
      rcases i with _ | i
      · simp at hi
        exact absurd hi hc
      · have hi2 := ih i hi
        obtain ⟨e, he, rest, hr⟩ := hi2
        exact ⟨e, he, rest, hr⟩
  | ent e he h ih =>
      rename_i l2
      intro i hi
      by_cases hlt : i < e.length
      · have hie : e.get? i = some '&' := by
          rw [List.get?_append hlt] at hi
          exact hi
        have hi0 : i = 0 := entity_amp_at_zero e he i hie
        subst hi0
        refine ⟨e, he, l2, ?_⟩
        simp
      · push_neg at hlt
        obtain ⟨j, rfl⟩ := Nat.exists_eq_add_of_le hlt
        rw [get?_append_len] at hi
        obtain ⟨e2, he2, rest, hr⟩ := ih j hi
        refine ⟨e2, he2, rest, ?_⟩
        rw [drop_append_len, hr]

theorem escChar_count (c : Char) :
    (escChar c).count aposChar = ([c] : List Char).count aposChar := by
  unfold escChar
  by_cases h1 : c = '&'
  · subst h1
    decide
  · rw [if_neg h1]
    by_cases h2 : c = '<'
    · subst h2
      decide
    · rw [if_neg h2]
      by_cases h3 : c = '>'
      · subst h3
        decide
      · rw [if_neg h3]
        by_cases h4 : c = quoteChar
        · subst h4
          decide
        · rw [if_neg h4]

theorem escHtml_count (s : List Char) :
    (escHtml s).count aposChar = s.count aposChar := by
  induction s with
  | nil => rfl
  | cons x s ih =>
      rw [escHtml_cons, List.count_append, escChar_count, ih]
      simp [List.count_cons]
      omega

/-- C10: the output of escHtml contains no less-than, greater-than or
double-quote character; every ampersand in the output is the start of
one of the four entities amp, lt, gt or quot; and single-quote
characters pass through unescaped, their count being preserved. -/
theorem escHtml_safe (s : List Char) :
    (∀ y ∈ escHtml s, y ≠ '<' ∧ y ≠ '>' ∧ y ≠ quoteChar) ∧
    (∀ i, (escHtml s).get? i = some '&' →
      ∃ e ∈ entities, ∃ rest, (escHtml s).drop i = e ++ rest) ∧
    (escHtml s).count aposChar = s.count aposChar :=
  ⟨fun y hy => escHtml_no_specials s y hy,
   ampOk_spec (ampOk_escHtml s),
   escHtml_count s⟩

/-- Witness for C10: in the escaped form of a two-character input the
ampersand at position 1 starts an entity. -/
theorem escHtml_safe_witness :
    ((escHtml ['a', '&']).get? 1 = some '&') ∧
    (∃ e ∈ entities, ∃ rest, (escHtml ['a', '&']).drop 1 = e ++ rest) :=
  ⟨by decide, (escHtml_safe ['a', '&']).2.1 1 (by decide)⟩

end HvacVibe
